import Mathlib

/-!
Verification development for the thebe execution-orchestration layer.

The development shallowly embeds three source areas:
* the notebook execution hook (`findErrors`, `useNotebookBase`: `executeAll`,
  `executeSome`, `clear`) — stateful React code is rendered as explicit state
  passing over `NotebookState`, with side-effecting callbacks (the `before` /
  `after` hooks, `notebook.clear()`) recorded in an event trace;
* the session provider (`startSession`, `start`) — same treatment over
  `SessionState`, with remote calls recorded as `SessionAction`s;
* the DOM glue (`setButtonsBusy`, `clearButtonsBusy`, `renderAllCells`) —
  the DOM is a tree of nodes with id, class list and a visibility style.

Promise chains are flattened: a function models the synchronous prefix plus
the `.then` continuation run at resolution time, with the external
collaborator's answer (the per-cell execution results, the server's reply)
passed in as data.
-/

set_option autoImplicit false
set_option linter.unusedVariables false

/-! ### Data model: cells, execution results (thebe-core collaborator types) -/

/-- A structured cell-execution error (the `error` payload carried by an
execution return; any present error object is truthy in the source). -/
structure ThebeCellError where
  message : String
  deriving DecidableEq

/-- `IThebeCellExecuteReturn`: the per-cell result produced by thebe-core,
carrying the cell id and an optional structured error. -/
structure IThebeCellExecuteReturn where
  id : String
  error : Option ThebeCellError
  deriving DecidableEq

/-- `IThebeNotebookError = IThebeCellExecuteReturn & \x7b index \x7d`: a failing
result together with its positional index in the scanned result list. -/
structure IThebeNotebookError where
  ret : IThebeCellExecuteReturn
  index : Nat
  deriving DecidableEq

/-- Modelled from the spec: a thebe-core cell (`IThebeCell`, not under src/)
has a stable `id` and a mutable `source`; `outcome` is the oracle giving the
execution result the remote kernel produces for this cell in the current run. -/
structure IThebeCell where
  id : String
  source : String
  outcome : IThebeCellExecuteReturn
  deriving DecidableEq

/-- Modelled from the spec: thebe-core's `ThebeNotebook` (not under src/) is an
ordered sequence of cells. -/
structure ThebeNotebook where
  cells : List IThebeCell
  deriving DecidableEq

/-- Modelled from the spec: running a list of cells in order. Under
stop-on-error, execution halts at the first failing cell and every later cell
is skipped with a `null` result; otherwise all cells run and each gets its
result. -/
def runCells (stopOnError : Bool) : List IThebeCell → List (Option IThebeCellExecuteReturn)
  | [] => []
  | c :: rest =>
    if stopOnError && c.outcome.error.isSome then
      some c.outcome :: rest.map (fun _ => none)
    else
      some c.outcome :: runCells stopOnError rest

/-- Modelled from the spec: `ThebeNotebook.executeAll(stopOnError, preprocessor?)`
returns the full ordered list of per-cell results, `null` for cells skipped by
stop-on-error.  The preprocessor transforms the source sent to the kernel and
does not change the shape of the result list. -/
def ThebeNotebook.executeAll (nb : ThebeNotebook) (stopOnError : Bool)
    (preprocessor : Option (String → String)) : List (Option IThebeCellExecuteReturn) :=
  runCells stopOnError nb.cells

/-- Modelled from the spec: `ThebeNotebook.executeCells(ids, stopOnError,
preprocessor?)` — "same, restricted": runs exactly the cells whose id is in
`ids`, in original notebook order, and returns the result list restricted to
those cells. -/
def ThebeNotebook.executeCells (nb : ThebeNotebook) (ids : List String) (stopOnError : Bool)
    (preprocessor : Option (String → String)) : List (Option IThebeCellExecuteReturn) :=
  runCells stopOnError (nb.cells.filter (fun c => ids.contains c.id))

/-- Modelled from the spec: `ThebeNotebook.getCellById(id)` returns the first
cell with the given id, or nothing. -/
def ThebeNotebook.getCellById (nb : ThebeNotebook) (id : String) : Option IThebeCell :=
  nb.cells.find? (fun c => c.id == id)

/-! ### `findErrors` (source: the notebook hook module) -/

/-- The `reduce` loop inside `findErrors`: walks the result list carrying the
positional `index` and the accumulator (`null` until the first error is seen);
an entry with a truthy `error` is appended (spread with its index). -/
def findErrorsGo (index : Nat) (acc : Option (List IThebeNotebookError)) :
    List (Option IThebeCellExecuteReturn) → Option (List IThebeNotebookError)
  | [] => acc
  | retval :: rest =>
    match retval with
    | some r =>
      if r.error.isSome then
        match acc with
        | none => findErrorsGo (index + 1) (some [⟨r, index⟩]) rest
        | some l => findErrorsGo (index + 1) (some (l ++ [⟨r, index⟩])) rest
      else
        findErrorsGo (index + 1) acc rest
    | none => findErrorsGo (index + 1) acc rest

/-- `findErrors(execReturns)`: reduce over the per-cell results with initial
accumulator `null`. -/
def findErrors (execReturns : List (Option IThebeCellExecuteReturn)) :
    Option (List IThebeNotebookError) :=
  findErrorsGo 0 none execReturns

/-- Whether a per-cell result entry carries an error (`retval?.error` truthy). -/
def carriesError : Option IThebeCellExecuteReturn → Bool
  | some r => r.error.isSome
  | none => false

/-- Spec-worded error collection, used as the refinement target for
`findErrors`: iterate the result list in order from position `n`, keeping
exactly the entries whose result carries an error, tagged with their index. -/
def failingFrom (n : Nat) : List (Option IThebeCellExecuteReturn) → List IThebeNotebookError
  | [] => []
  | retval :: rest =>
    match retval with
    | some r =>
      if r.error.isSome then ⟨r, n⟩ :: failingFrom (n + 1) rest
      else failingFrom (n + 1) rest
    | none => failingFrom (n + 1) rest

/-- Spec-worded observable value of the error collection: "no errors" when no
entry carries an error, otherwise the non-empty ordered list of failing
entries — never an empty list. -/
def errorCollectionSpec (xs : List (Option IThebeCellExecuteReturn)) :
    Option (List IThebeNotebookError) :=
  let l := failingFrom 0 xs
  if l = [] then none else some l

/-! ### The notebook hook state and operations (`useNotebookBase`) -/

/-- Observable state kept by `useNotebookBase` (the `refs` array is omitted:
it is DOM glue unrelated to execution orchestration). -/
structure NotebookState where
  notebook : Option ThebeNotebook
  executing : Bool
  executed : Bool
  errors : Option (List IThebeNotebookError)
  deriving DecidableEq

/-- `NotebookExecuteOptions`: the hooks are modelled by their presence (their
only observable effect is being invoked, which the event trace records). -/
structure NotebookExecuteOptions where
  stopOnError : Option Bool
  before : Option Unit
  after : Option Unit
  preprocessor : Option (String → String)

/-- Events emitted by the hook operations: invoking the optional `before` /
`after` callbacks and asking the notebook to discard its outputs. -/
inductive NbEvent where
  | beforeHook
  | afterHook
  | clearedNotebook
  deriving DecidableEq

/-- `options?.hook?.()` — the event fired when the selected optional callback
is present. -/
def hookEvent (options : Option NotebookExecuteOptions)
    (sel : NotebookExecuteOptions → Option Unit) (ev : NbEvent) : List NbEvent :=
  match options with
  | none => []
  | some o =>
    match sel o with
    | none => []
    | some _ => [ev]

/-- `options?.stopOnError ?? true`. -/
def optStopOnError (options : Option NotebookExecuteOptions) : Bool :=
  match options with
  | none => true
  | some o => o.stopOnError.getD true

/-- `options?.preprocessor`. -/
def optPreprocessor (options : Option NotebookExecuteOptions) : Option (String → String) :=
  options.bind (fun o => o.preprocessor)

/-- The synchronous prefix shared by `executeAll` / `executeSome` (after the
missing-notebook throw): invoke the optional `before` hook and set
`executing = true`. -/
def executeStart (s : NotebookState) (options : Option NotebookExecuteOptions) :
    List NbEvent × NotebookState :=
  (hookEvent options (fun o => o.before) NbEvent.beforeHook, { s with executing := true })

/-- The `.then` continuation shared by `executeAll` / `executeSome`: invoke the
optional `after` hook, scan the results (`setErrors` only when `findErrors`
found something), set `executed = true`, `executing = false`, and pass the
result list through. -/
def executeResolve (s : NotebookState) (options : Option NotebookExecuteOptions)
    (execReturns : List (Option IThebeCellExecuteReturn)) :
    List NbEvent × NotebookState × List (Option IThebeCellExecuteReturn) :=
  (hookEvent options (fun o => o.after) NbEvent.afterHook,
   { s with
      errors := match findErrors execReturns with
        | none => s.errors
        | some errs => some errs
      executed := true
      executing := false },
   execReturns)

/-- `executeAll(options)`: throws when no notebook is set; otherwise runs the
synchronous prefix, delegates to the notebook's bulk execution primitive, and
runs the resolution continuation. -/
def executeAll (s : NotebookState) (options : Option NotebookExecuteOptions) :
    Except String (List NbEvent × NotebookState × List (Option IThebeCellExecuteReturn)) :=
  match s.notebook with
  | none => Except.error "executeAll called before notebook available"
  | some nb =>
    let startRes := executeStart s options
    let res := executeResolve startRes.2 options
      (nb.executeAll (optStopOnError options) (optPreprocessor options))
    Except.ok (startRes.1 ++ res.1, res.2)

/-- `executeSome(predicate, options)`: as `executeAll`, but the predicate is
evaluated once, up front, over the full cell list, and the selected ids are
passed to the notebook's restricted execution primitive. -/
def executeSome (s : NotebookState) (pred : IThebeCell → Bool)
    (options : Option NotebookExecuteOptions) :
    Except String (List NbEvent × NotebookState × List (Option IThebeCellExecuteReturn)) :=
  match s.notebook with
  | none => Except.error "executeSome called before notebook available"
  | some nb =>
    let startRes := executeStart s options
    let filteredCells := (nb.cells.filter pred).map (fun c => c.id)
    let res := executeResolve startRes.2 options
      (nb.executeCells filteredCells (optStopOnError options) (optPreprocessor options))
    Except.ok (startRes.1 ++ res.1, res.2)

/-- `clear()`: throws when no notebook is set; otherwise asks the notebook to
discard its outputs and resets `executed` (and nothing else). -/
def clear (s : NotebookState) : Except String (List NbEvent × NotebookState) :=
  match s.notebook with
  | none => Except.error "clear called before notebook available"
  | some _ => Except.ok ([NbEvent.clearedNotebook], { s with executed := false })

/-! ### The session provider (`ThebeSessionProvider`: `startSession`, `start`) -/

/-- An opaque handle to a live remote session (thebe-core collaborator). -/
structure ThebeSession where
  id : String
  deriving DecidableEq

/-- Kernel configuration carried by the server config (`config?.kernels`). -/
structure KernelOptions where
  kernelName : String
  deriving DecidableEq

/-- The provider configuration (`useThebeServer().config`), as far as the
session provider reads it. -/
structure ThebeConfig where
  kernels : KernelOptions
  deriving DecidableEq

/-- The request passed to `startNewSession`: the spread kernel configuration
plus the logical `name` used as both display name and working `path`. -/
structure SessionRequestOptions where
  kernels : Option KernelOptions
  name : String
  path : String
  deriving DecidableEq

/-- `getKernelSpecs()` reply: an ordered mapping of kernel-spec names to specs
(`Object.keys` enumerates the names in order). -/
structure KernelSpecs where
  kernelspecs : List (String × String)
  deriving DecidableEq

/-- The compute-server connection, as consumed by the provider: an async
session factory and the kernel-spec query, modelled by their resolved
answers. -/
structure ThebeServer where
  startNewSession : SessionRequestOptions → Option ThebeSession
  getKernelSpecs : KernelSpecs

/-- Remote calls issued by the provider operations, in order. -/
inductive SessionAction where
  | requestedNewSession (options : SessionRequestOptions)
  | restartedExistingSession
  | queriedKernelSpecs
  deriving DecidableEq

/-- Observable state of `ThebeSessionProvider`. -/
structure SessionState where
  starting : Bool
  doRestart : Bool
  restarting : Bool
  session : Option ThebeSession
  ready : Bool
  error : Option String
  deriving DecidableEq

/-- JavaScript array-to-string conversion (used when the kernel-spec name list
is interpolated into the error message): elements joined by commas. -/
def joinComma : List String → String
  | [] => ""
  | [x] => x
  | x :: xs => x ++ "," ++ joinComma xs

namespace SessionProvider

/-- `startSession()`, flattened through its promise: sets `starting`, requests
a new session passing the kernel configuration plus the logical name as both
display name and path; on resolution clears `starting`; when the server
returned no session, queries the kernel specs and records the descriptive
error message (the state keeps no session and `ready` is untouched); otherwise
stores the handle and marks ready. -/
def startSession (server : ThebeServer) (config : Option ThebeConfig) (name : String)
    (s : SessionState) : List SessionAction × SessionState :=
  let options : SessionRequestOptions :=
    { kernels := config.map (fun c => c.kernels), name := name, path := name }
  match server.startNewSession options with
  | none =>
    ([SessionAction.requestedNewSession options, SessionAction.queriedKernelSpecs],
     { s with
        starting := false
        error := some ("Could not start a session - available kernels: " ++
          joinComma (server.getKernelSpecs.kernelspecs.map Prod.fst)) })
  | some sesh =>
    ([SessionAction.requestedNewSession options],
     { s with starting := false, session := some sesh, ready := true })

/-- `start()`: when a session exists and is ready, restart that same session
(no provider state change, no new session requested); otherwise fall through
to `startSession`. -/
def start (server : ThebeServer) (config : Option ThebeConfig) (name : String)
    (s : SessionState) : List SessionAction × SessionState :=
  if s.session.isSome && s.ready then
    ([SessionAction.restartedExistingSession], s)
  else
    startSession server config name s

end SessionProvider

/-! ### DOM model for the busy-indicator protocol (`setButtonsBusy` etc.) -/

/-- A DOM element: id attribute, class list, `style.visibility`, children. -/
inductive DomTree : Type where
  | node (eid : String) (classes : List String) (visibility : String)
      (children : List DomTree)

/-! `getById`: `document.getElementById`, searching a subtree in document order. -/

mutual

def getById (i : String) : DomTree → Option DomTree
  | DomTree.node eid cs v ch =>
    if eid = i then some (DomTree.node eid cs v ch) else getByIdList i ch

def getByIdList (i : String) : List DomTree → Option DomTree
  | [] => none
  | t :: ts =>
    match getById i t with
    | some r => some r
    | none => getByIdList i ts

end

/-! `collectClass`: all nodes of a subtree (in document order) whose class
list contains the given class name. -/

mutual

def collectClass (cls : String) : DomTree → List DomTree
  | DomTree.node eid cs v ch =>
    (if cls ∈ cs then [DomTree.node eid cs v ch] else []) ++ collectClassList cls ch

def collectClassList (cls : String) : List DomTree → List DomTree
  | [] => []
  | t :: ts => collectClass cls t ++ collectClassList cls ts

end

/-- `element.getElementsByClassName(cls)`: matching descendants, excluding the
element itself. -/
def getElementsByClassName (cls : String) : DomTree → List DomTree
  | DomTree.node eid cs v ch => collectClassList cls ch

/-! `setFirstVis`: set `style.visibility` on the first node (in document
order) whose class list contains `cls`; the Bool reports whether a node was
updated. -/

mutual

def setFirstVis (cls vis : String) : DomTree → DomTree × Bool
  | DomTree.node eid cs v ch =>
    if cls ∈ cs then (DomTree.node eid cs vis ch, true)
    else
      let r := setFirstVisList cls vis ch
      (DomTree.node eid cs v r.1, r.2)

def setFirstVisList (cls vis : String) : List DomTree → List DomTree × Bool
  | [] => ([], false)
  | t :: ts =>
    let r := setFirstVis cls vis t
    if r.2 then (r.1 :: ts, true)
    else
      let rs := setFirstVisList cls vis ts
      (r.1 :: rs.1, rs.2)

end

/-! `setVisUnderId`: under the node with id `targetId`, set the visibility of
its first descendant carrying class `cls` (the mutation performed on the
element that `getButtonsBusy` returns). -/

mutual

def setVisUnderId (targetId cls vis : String) : DomTree → DomTree
  | DomTree.node eid cs v ch =>
    if eid = targetId then DomTree.node eid cs v (setFirstVisList cls vis ch).1
    else DomTree.node eid cs v (setVisUnderIdList targetId cls vis ch)

def setVisUnderIdList (targetId cls vis : String) : List DomTree → List DomTree
  | [] => []
  | t :: ts => setVisUnderId targetId cls vis t :: setVisUnderIdList targetId cls vis ts

end

/-- `getButtonsBusy(id)`: `document.getElementById(id)`, then
`getElementsByClassName('.thebe-busy').item(0)` — note the class-name string
in the source contains a leading dot. -/
def getButtonsBusy (doc : DomTree) (id : String) : Option DomTree :=
  match getById id doc with
  | none => none
  | some cell => (getElementsByClassName ".thebe-busy" cell).head?

/-- `setButtonsBusy(id)`: make the element found by `getButtonsBusy` visible;
no element found means no change to the document. -/
def setButtonsBusy (doc : DomTree) (id : String) : DomTree :=
  match getButtonsBusy doc id with
  | none => doc
  | some _ => setVisUnderId id ".thebe-busy" "visible" doc

/-- `clearButtonsBusy(id)`: after a fixed `setTimeout` delay of 3000 ms, hide
the element found by `getButtonsBusy`.  Modelled as the scheduled delay paired
with the document produced when the timer fires. -/
def clearButtonsBusy (doc : DomTree) (id : String) : Nat × DomTree :=
  (3000,
   match getButtonsBusy doc id with
   | none => doc
   | some _ => setVisUnderId id ".thebe-busy" "hidden" doc)

/-- `buildButtonBusySpinner(parent)` appends to the parent an outer div with
class `thebe-busy` (hidden by default through the stylesheet) containing the
spinner div; the returned subtree is the busy indicator for the cell. -/
def buildButtonBusySpinner : DomTree :=
  DomTree.node "" ["thebe-busy"] "hidden" [DomTree.node "" ["thebe-busy-spinner"] "hidden" []]

/-! ### Cell rendering (`renderAllCells`, `buildCellUI`) -/

/-- Abstract DOM elements handled by the renderer: pre-existing page
placeholders and the elements `buildCellUI` creates for a given item id. -/
inductive Elem where
  | fromPage (n : Nat)
  | boxFor (id : String)
  | editorFor (id : String)
  | outputFor (id : String)
  | buttonFor (id : String) (slug : String)
  deriving DecidableEq

/-- The `buttons` record of a built cell UI. -/
structure CellUIButtons where
  run : Option Elem
  runAll : Option Elem
  restart : Option Elem
  restartAll : Option Elem
  deriving DecidableEq

/-- The `ui` record of a `CellDOMItem` once built. -/
structure CellUI where
  cell : Elem
  editor : Elem
  output : Option Elem
  buttons : CellUIButtons
  deriving DecidableEq

/-- The source/output placeholder pair discovered on the page. -/
structure Placeholders where
  source : Elem
  output : Option Elem
  deriving DecidableEq

/-- `CellDOMItem`: a discovered cell DOM slot; `ui` is absent until built. -/
structure CellDOMItem where
  id : String
  placeholders : Placeholders
  ui : Option CellUI
  deriving DecidableEq

/-- Mount-control flags of the renderer options (`Options`, modelled from its
use sites: which buttons `buildCellUI` mounts). -/
structure Options where
  mountRunButton : Bool
  mountRunAllButton : Bool
  mountRestartButton : Bool
  mountRestartallButton : Bool
  deriving DecidableEq

/-- DOM side effects performed while building a cell UI. -/
inductive DomAction where
  | replacedWith (oldEl newEl : Elem)
  | attachedToDOM (cellId : String) (target : Elem)
  deriving DecidableEq

/-- `buildCellUI(options, item, notebook, cell)`: create the cell box and
editor, mount the buttons selected by the options, reuse the output
placeholder or append a fresh output element, replace the source placeholder
with the box, and attach the cell's output target to the DOM.  The editor
widget internals (CodeMirror setup) are rendering glue outside the modelled
behavior; the built elements and the DOM side effects are kept. -/
def buildCellUI (options : Options) (item : CellDOMItem) (notebook : ThebeNotebook)
    (cell : IThebeCell) : CellDOMItem × List DomAction :=
  let box := Elem.boxFor item.id
  let editor := Elem.editorFor item.id
  let run := if options.mountRunButton then some (Elem.buttonFor item.id "run") else none
  let runAll := if options.mountRunAllButton then some (Elem.buttonFor item.id "runall") else none
  let restart :=
    if options.mountRestartButton then some (Elem.buttonFor item.id "restart") else none
  let restartAll :=
    if options.mountRestartallButton then some (Elem.buttonFor item.id "restartall") else none
  let output :=
    match item.placeholders.output with
    | some o => o
    | none => Elem.outputFor item.id
  ({ item with
      ui := some
        { cell := box, editor := editor, output := some output,
          buttons :=
            { run := run, runAll := runAll, restart := restart, restartAll := restartAll } } },
   [DomAction.replacedWith item.placeholders.source box,
    DomAction.attachedToDOM cell.id output])

/-- `renderAllCells(options, notebook, items)`: map over the discovered items;
an item whose id has no matching cell is passed through unchanged (and no DOM
side effect happens for it), otherwise the built UI item replaces it. -/
def renderAllCells (options : Options) (notebook : ThebeNotebook)
    (items : List CellDOMItem) : List (CellDOMItem × List DomAction) :=
  items.map fun item =>
    match notebook.getCellById item.id with
    | none => (item, [])
    | some cell => buildCellUI options item notebook cell

/-! ### Lemmas: the `findErrors` reduce against the spec-worded collection -/

theorem findErrorsGo_eq (xs : List (Option IThebeCellExecuteReturn)) :
    ∀ (n : Nat) (acc : Option (List IThebeNotebookError)),
      findErrorsGo n acc xs =
        match acc with
        | none => if failingFrom n xs = [] then none else some (failingFrom n xs)
        | some a => some (a ++ failingFrom n xs) := by
  induction xs with
  | nil =>
    intro n acc
    cases acc <;> simp [findErrorsGo, failingFrom]
  | cons x rest ih =>
    intro n acc
    cases x with
    | none => cases acc <;> simp [findErrorsGo, failingFrom, ih]
    | some r =>
      by_cases hr : r.error.isSome
      · cases acc <;> simp [findErrorsGo, failingFrom, hr, ih]
      · cases acc <;> simp [findErrorsGo, failingFrom, hr, ih]

theorem findErrors_eq_spec (xs : List (Option IThebeCellExecuteReturn)) :
    findErrors xs = errorCollectionSpec xs := by
  simp [findErrors, errorCollectionSpec, findErrorsGo_eq]

theorem failingFrom_nil_iff (xs : List (Option IThebeCellExecuteReturn)) :
    ∀ n, failingFrom n xs = [] ↔ ∀ r ∈ xs, carriesError r = false := by
  induction xs with
  | nil => intro n; simp [failingFrom]
  | cons x rest ih =>
    intro n
    cases x with
    | none => simp [failingFrom, carriesError, ih]
    | some r =>
      by_cases hr : r.error.isSome
      · simp [failingFrom, carriesError, hr, ih]
      · simp [failingFrom, carriesError, hr, ih]

theorem failingFrom_index_ge (xs : List (Option IThebeCellExecuteReturn)) :
    ∀ n, ∀ e ∈ failingFrom n xs, n ≤ e.index := by
  induction xs with
  | nil => intro n e he; simp [failingFrom] at he
  | cons x rest ih =>
    intro n e he
    cases x with
    | none =>
      rw [failingFrom] at he
      exact Nat.le_of_succ_le (ih (n + 1) e he)
    | some r =>
      by_cases hr : r.error.isSome
      · rw [failingFrom] at he
        simp only [hr, if_true] at he
        rcases List.mem_cons.mp he with he | he
        · subst he; exact Nat.le_refl n
        · exact Nat.le_of_succ_le (ih (n + 1) e he)
      · rw [failingFrom] at he
        simp only [hr, if_false] at he
        exact Nat.le_of_succ_le (ih (n + 1) e he)

theorem failingFrom_pairwise (xs : List (Option IThebeCellExecuteReturn)) :
    ∀ n, List.Pairwise (fun a b => a.index < b.index) (failingFrom n xs) := by
  induction xs with
  | nil => intro n; simp [failingFrom]
  | cons x rest ih =>
    intro n
    cases x with
    | none => rw [failingFrom]; exact ih (n + 1)
    | some r =>
      by_cases hr : r.error.isSome
      · rw [failingFrom]
        simp only [hr, if_true]
        refine List.Pairwise.cons ?_ (ih (n + 1))
        intro b hb
        have hge := failingFrom_index_ge rest (n + 1) b hb
        exact Nat.lt_of_succ_le hge
      · rw [failingFrom]; simp only [hr, if_false]; exact ih (n + 1)

theorem mem_failingFrom (xs : List (Option IThebeCellExecuteReturn)) :
    ∀ n (e : IThebeNotebookError),
      e ∈ failingFrom n xs ↔
        ∃ i, xs.get? i = some (some e.ret) ∧ e.ret.error.isSome = true ∧ e.index = n + i := by
  induction xs with
  | nil => intro n e; simp [failingFrom]
  | cons x rest ih =>
    intro n e
    cases x with
    | none =>
      rw [failingFrom, ih]
      constructor
      · rintro ⟨i, h1, h2, h3⟩
        exact ⟨i + 1, by simpa using h1, h2, by omega⟩
      · rintro ⟨i, h1, h2, h3⟩
        cases i with
        | zero => simp at h1
        | succ j => exact ⟨j, by simpa using h1, h2, by omega⟩
    | some r =>
      by_cases hr : r.error.isSome
      · rw [failingFrom]
        simp only [hr, if_true]
        constructor
        · intro he
          rcases List.mem_cons.mp he with he | he
          · exact ⟨0, by simp [he], by simp [he, hr], by simp [he]⟩
          · rcases (ih (n + 1) e).mp he with ⟨i, h1, h2, h3⟩
            exact ⟨i + 1, by simpa using h1, h2, by omega⟩
        · rintro ⟨i, h1, h2, h3⟩
          cases i with
          | zero =>
            simp only [List.get?_cons_zero, Option.some.injEq] at h1
            have he : e = ⟨r, n⟩ := by
              cases e with
              | mk ret idx =>
                simp only at h1 h3
                simp [← h1, h3]
            simp [he]
          | succ j =>
            refine List.mem_cons.mpr (Or.inr ((ih (n + 1) e).mpr ⟨j, ?_, h2, by omega⟩))
            simpa using h1
      · rw [failingFrom, if_neg hr]
        rw [ih]
        constructor
        · rintro ⟨i, h1, h2, h3⟩
          exact ⟨i + 1, by simpa using h1, h2, by omega⟩
        · rintro ⟨i, h1, h2, h3⟩
          cases i with
          | zero =>
            simp only [List.get?_cons_zero, Option.some.injEq] at h1
            rw [← h1] at h2
            simp [h2] at hr
          | succ j => exact ⟨j, by simpa using h1, h2, by omega⟩

theorem mem_failingFrom_zero (xs : List (Option IThebeCellExecuteReturn))
    (e : IThebeNotebookError) :
    e ∈ failingFrom 0 xs ↔
      xs.get? e.index = some (some e.ret) ∧ e.ret.error.isSome = true := by
  rw [mem_failingFrom]
  constructor
  · rintro ⟨i, h1, h2, h3⟩
    have hi : i = e.index := by omega
    subst hi
    exact ⟨h1, h2⟩
  · rintro ⟨h1, h2⟩
    exact ⟨e.index, h1, h2, by omega⟩

theorem findErrors_ne_some_nil (xs : List (Option IThebeCellExecuteReturn)) :
    findErrors xs ≠ some [] := by
  rw [findErrors_eq_spec, errorCollectionSpec]
  by_cases hnil : failingFrom 0 xs = [] <;> simp [hnil]

theorem findErrors_eq_none_iff (xs : List (Option IThebeCellExecuteReturn)) :
    findErrors xs = none ↔ ∀ r ∈ xs, carriesError r = false := by
  rw [findErrors_eq_spec, errorCollectionSpec, ← failingFrom_nil_iff xs 0]
  by_cases hnil : failingFrom 0 xs = [] <;> simp [hnil]

theorem findErrors_some_eq (xs : List (Option IThebeCellExecuteReturn))
    (l : List IThebeNotebookError) (h : findErrors xs = some l) :
    l = failingFrom 0 xs := by
  rw [findErrors_eq_spec, errorCollectionSpec] at h
  by_cases hnil : failingFrom 0 xs = []
  · simp [hnil] at h
  · simp only [hnil, if_neg, if_false, Option.some.injEq] at h
    exact h.symm

theorem findErrors_entries (xs : List (Option IThebeCellExecuteReturn))
    (l : List IThebeNotebookError) (h : findErrors xs = some l) :
    ∀ e ∈ l, xs.get? e.index = some (some e.ret) ∧ e.ret.error.isSome = true := by
  intro e he
  rw [findErrors_some_eq xs l h] at he
  exact (mem_failingFrom_zero xs e).mp he

/-! ### Lemmas: `runCells` result positions -/

theorem runCells_get?_some (stopOnError : Bool) (cells : List IThebeCell) :
    ∀ (i : Nat) (r : IThebeCellExecuteReturn),
      (runCells stopOnError cells).get? i = some (some r) →
      ∃ c, cells.get? i = some c ∧ r = c.outcome := by
  induction cells with
  | nil => intro i r h; simp [runCells] at h
  | cons c rest ih =>
    intro i r h
    by_cases hc : stopOnError && c.outcome.error.isSome
    · rw [runCells, if_pos hc] at h
      cases i with
      | zero =>
        simp only [List.get?_cons_zero, Option.some.injEq] at h
        exact ⟨c, rfl, by simp [← h]⟩
      | succ j =>
        simp only [List.get?_cons_succ, List.get?_map] at h
        cases hj : rest.get? j <;> simp [hj] at h
    · rw [runCells, if_neg hc] at h
      cases i with
      | zero =>
        simp only [List.get?_cons_zero, Option.some.injEq] at h
        exact ⟨c, rfl, by simp [← h]⟩
      | succ j =>
        simp only [List.get?_cons_succ] at h
        obtain ⟨c', hc', hr⟩ := ih j r h
        exact ⟨c', by simpa using hc', hr⟩

/-! ### Concrete fixtures used by witnesses and counterexamples -/

/-- A cell that executes successfully. -/
def cellA : IThebeCell := ⟨"a", "x = 1", ⟨"a", none⟩⟩

/-- A cell whose execution reports an error. -/
def cellB : IThebeCell := ⟨"b", "raise RuntimeError()", ⟨"b", some ⟨"RuntimeError"⟩⟩⟩

/-- Another successful cell. -/
def cellC : IThebeCell := ⟨"c", "y = 2", ⟨"c", none⟩⟩

/-- A three-cell notebook whose middle cell fails. -/
def nbABC : ThebeNotebook := ⟨[cellA, cellB, cellC]⟩

/-- A notebook whose cells all succeed. -/
def nbAllOk : ThebeNotebook := ⟨[cellA, cellC]⟩

/-- Fresh hook state holding `nbABC`. -/
def freshNbState : NotebookState := ⟨some nbABC, false, false, none⟩

/-- Hook state with no notebook attached yet. -/
def noNbState : NotebookState := ⟨none, false, false, none⟩

/-- An error entry as recorded by a previous failing run. -/
def staleEntry : IThebeNotebookError := ⟨⟨"b", some ⟨"RuntimeError"⟩⟩, 1⟩

/-- State after a failing run of `nbABC`, then the notebook swapped for an
all-successful one: `errors` still holds the stale entry. -/
def staleOkState : NotebookState := ⟨some nbAllOk, false, true, some [staleEntry]⟩

/-- Execute options carrying only an `after` hook. -/
def optsWithAfter : NotebookExecuteOptions := ⟨none, none, some (), none⟩

/-- A result list with two failing entries at positions 2 and 3. -/
def xsW : List (Option IThebeCellExecuteReturn) :=
  [some ⟨"a", none⟩, none, some ⟨"c", some ⟨"NameError"⟩⟩, some ⟨"d", some ⟨"ValueError"⟩⟩]

/-! ### Claim theorems -/

/-- C1: with a notebook set, `executeAll` sets `executing = true` before
dispatching to the notebook's bulk execution primitive; when the promise
resolves it has invoked the optional `after` hook exactly when one was
supplied, set `executed = true` and `executing = false`, and it resolves with
the full ordered per-cell result list (null entries for skipped cells
included) exactly as returned by the primitive. -/
theorem C1_executeAll_contract (s : NotebookState) (nb : ThebeNotebook)
    (options : Option NotebookExecuteOptions) (h : s.notebook = some nb) :
    (executeStart s options).2.executing = true ∧
    ∃ ev s2,
      executeAll s options =
        Except.ok (ev, s2, nb.executeAll (optStopOnError options) (optPreprocessor options)) ∧
      (NbEvent.afterHook ∈ ev ↔ (options.bind (fun o => o.after)).isSome = true) ∧
      s2.executed = true ∧ s2.executing = false := by
  constructor
  · rfl
  · unfold executeAll
    rw [h]
    refine ⟨_, _, rfl, ?_, rfl, rfl⟩
    cases options with
    | none => simp [executeStart, executeResolve, hookEvent]
    | some o =>
      cases hb : o.before <;> cases ha : o.after <;>
        simp [executeStart, executeResolve, hookEvent, hb, ha]

/-- C1 witness at a concrete state, notebook and options. -/
theorem C1_executeAll_contract_witness :
    (executeStart freshNbState (some optsWithAfter)).2.executing = true ∧
    ∃ ev s2,
      executeAll freshNbState (some optsWithAfter) =
        Except.ok (ev, s2, nbABC.executeAll (optStopOnError (some optsWithAfter))
          (optPreprocessor (some optsWithAfter))) ∧
      (NbEvent.afterHook ∈ ev ↔
        ((some optsWithAfter).bind (fun o => o.after)).isSome = true) ∧
      s2.executed = true ∧ s2.executing = false :=
  C1_executeAll_contract freshNbState nbABC (some optsWithAfter) rfl

/-- C2: `findErrors` realises the spec's error-collection algorithm: it agrees
with the spec-worded collection, yields `none` exactly when no entry carries
an error, never yields an empty list, and any produced list is non-empty,
strictly ascending in `index`, and holds exactly the failing entries at their
positions. -/
theorem C2_findErrors_error_collection (xs : List (Option IThebeCellExecuteReturn)) :
    findErrors xs = errorCollectionSpec xs ∧
    (findErrors xs = none ↔ ∀ r ∈ xs, carriesError r = false) ∧
    findErrors xs ≠ some [] ∧
    ∀ l, findErrors xs = some l →
      l ≠ [] ∧
      List.Pairwise (fun a b => a.index < b.index) l ∧
      ∀ e, e ∈ l ↔ (xs.get? e.index = some (some e.ret) ∧ e.ret.error.isSome = true) := by
  refine ⟨findErrors_eq_spec xs, findErrors_eq_none_iff xs, findErrors_ne_some_nil xs, ?_⟩
  intro l hl
  have heq := findErrors_some_eq xs l hl
  subst heq
  refine ⟨?_, failingFrom_pairwise xs 0, fun e => mem_failingFrom_zero xs e⟩
  intro hnil
  rw [hnil] at hl
  exact findErrors_ne_some_nil xs hl

/-- C2 witness at a concrete result list with failures at positions 2 and 3. -/
theorem C2_findErrors_error_collection_witness :
    findErrors xsW = some [⟨⟨"c", some ⟨"NameError"⟩⟩, 2⟩, ⟨⟨"d", some ⟨"ValueError"⟩⟩, 3⟩] ∧
    ([⟨⟨"c", some ⟨"NameError"⟩⟩, 2⟩, ⟨⟨"d", some ⟨"ValueError"⟩⟩, 3⟩] :
      List IThebeNotebookError) ≠ [] ∧
    List.Pairwise (fun a b => a.index < b.index)
      ([⟨⟨"c", some ⟨"NameError"⟩⟩, 2⟩, ⟨⟨"d", some ⟨"ValueError"⟩⟩, 3⟩] :
        List IThebeNotebookError) := by
  refine ⟨rfl, ?_, ?_⟩
  · exact ((C2_findErrors_error_collection xsW).2.2.2 _ rfl).1
  · exact ((C2_findErrors_error_collection xsW).2.2.2 _ rfl).2.1

/-- C5: with no notebook set, `executeAll`, `executeSome` and `clear` all
signal a hard failure to the caller instead of silently doing nothing. -/
theorem C5_operations_throw_without_notebook (s : NotebookState)
    (pred : IThebeCell → Bool) (options : Option NotebookExecuteOptions)
    (h : s.notebook = none) :
    executeAll s options = Except.error "executeAll called before notebook available" ∧
    executeSome s pred options = Except.error "executeSome called before notebook available" ∧
    clear s = Except.error "clear called before notebook available" := by
  refine ⟨?_, ?_, ?_⟩
  · unfold executeAll; rw [h]
  · unfold executeSome; rw [h]
  · unfold clear; rw [h]

/-- C5 witness at the notebook-less state. -/
theorem C5_operations_throw_without_notebook_witness :
    executeAll noNbState none = Except.error "executeAll called before notebook available" ∧
    executeSome noNbState (fun _ => true) none =
      Except.error "executeSome called before notebook available" ∧
    clear noNbState = Except.error "clear called before notebook available" :=
  C5_operations_throw_without_notebook noNbState (fun _ => true) none rfl

/-- C8: with a notebook set, `clear()` asks the notebook to discard its
outputs and resets `executed = false`, while `errors`, `executing` and the
notebook reference are left unchanged. -/
theorem C8_clear_frame (s : NotebookState) (nb : ThebeNotebook) (h : s.notebook = some nb) :
    clear s = Except.ok ([NbEvent.clearedNotebook], { s with executed := false }) ∧
    ∀ ev s2, clear s = Except.ok (ev, s2) →
      ev = [NbEvent.clearedNotebook] ∧ s2.executed = false ∧
      s2.errors = s.errors ∧ s2.executing = s.executing ∧ s2.notebook = s.notebook := by
  have h1 : clear s = Except.ok ([NbEvent.clearedNotebook], { s with executed := false }) := by
    unfold clear; rw [h]
  refine ⟨h1, ?_⟩
  intro ev s2 h2
  rw [h1] at h2
  injection h2 with hpair
  cases hpair
  exact ⟨rfl, rfl, rfl, rfl, rfl⟩

/-- C8 witness at a state carrying stale errors from a previous failing run. -/
theorem C8_clear_frame_witness :
    clear staleOkState =
      Except.ok ([NbEvent.clearedNotebook], { staleOkState with executed := false }) ∧
    ∀ ev s2, clear staleOkState = Except.ok (ev, s2) →
      ev = [NbEvent.clearedNotebook] ∧ s2.executed = false ∧
      s2.errors = staleOkState.errors ∧ s2.executing = staleOkState.executing ∧
      s2.notebook = staleOkState.notebook :=
  C8_clear_frame staleOkState nbAllOk rfl

/-- C3 counterexample: from a state whose previous run recorded an error, a
fully successful `executeAll` run (no result carries an error) leaves the
observed `errors` value at the stale entry — it does not become unset. -/
theorem C3_counterexample :
    (∀ r ∈ nbAllOk.executeAll true none, carriesError r = false) ∧
    staleOkState.notebook = some nbAllOk ∧
    (match executeAll staleOkState none with
     | Except.ok (_, s2, _) => s2.errors
     | Except.error _ => none) = some [staleEntry] := by
  exact ⟨by decide, rfl, rfl⟩

/-- C3 amended: a run in which every executed cell succeeds leaves `errors`
unchanged from before the run — in particular it is unset after such a run
only when no errors had been recorded previously; errors recorded by a prior
run persist. -/
theorem C3_amended_success_leaves_errors (s : NotebookState) (nb : ThebeNotebook)
    (pred : IThebeCell → Bool) (options : Option NotebookExecuteOptions)
    (h : s.notebook = some nb) :
    ((∀ r ∈ nb.executeAll (optStopOnError options) (optPreprocessor options),
        carriesError r = false) →
      ∀ ev s2 ret, executeAll s options = Except.ok (ev, s2, ret) → s2.errors = s.errors) ∧
    ((∀ r ∈ nb.executeCells ((nb.cells.filter pred).map (fun c => c.id))
          (optStopOnError options) (optPreprocessor options),
        carriesError r = false) →
      ∀ ev s2 ret, executeSome s pred options = Except.ok (ev, s2, ret) →
        s2.errors = s.errors) := by
  constructor
  · intro hall ev s2 ret heq
    have hnone : findErrors (nb.executeAll (optStopOnError options) (optPreprocessor options))
        = none := (findErrors_eq_none_iff _).mpr hall
    unfold executeAll at heq
    rw [h] at heq
    simp only [executeStart, executeResolve, hnone] at heq
    injection heq with hpair
    cases hpair
    rfl
  · intro hall ev s2 ret heq
    have hnone : findErrors (nb.executeCells ((nb.cells.filter pred).map (fun c => c.id))
        (optStopOnError options) (optPreprocessor options)) = none :=
      (findErrors_eq_none_iff _).mpr hall
    unfold executeSome at heq
    rw [h] at heq
    simp only [executeStart, executeResolve, hnone] at heq
    injection heq with hpair
    cases hpair
    rfl

/-- C3 witness: the amended statement applied at the stale state with the
all-successful notebook — the run leaves the stale errors in place. -/
theorem C3_amended_success_leaves_errors_witness :
    (match executeAll staleOkState none with
     | Except.ok (_, s2, _) => s2.errors
     | Except.error _ => none) = staleOkState.errors := by
  exact (C3_amended_success_leaves_errors staleOkState nbAllOk (fun _ => true) none rfl).1
    (by decide) [] staleOkState [some ⟨"a", none⟩, some ⟨"c", none⟩] rfl

/-- C4 counterexample: running `executeSome` with a predicate selecting only
the failing cell `"b"` of the three-cell notebook records an error entry with
index 0 (its position in the filtered result list), while that cell's position
in the notebook at the time of the run is 1. -/
theorem C4_counterexample :
    (match executeSome freshNbState (fun c => c.id == "b") none with
     | Except.ok (_, s2, _) => s2.errors
     | Except.error _ => none) = some [⟨⟨"b", some ⟨"RuntimeError"⟩⟩, 0⟩] ∧
    nbABC.cells.findIdx (fun c => c.id == "b") = 1 := by
  exact ⟨rfl, rfl⟩

/-- C4 amended: every entry recorded in `errors` has `index` equal to the
entry's position in the per-cell result list scanned for that run; for
`executeAll` that list is the full notebook result list, so the index is the
failing cell's notebook position, while for `executeSome` it is the position
within the filtered result list (not necessarily the notebook position). -/
theorem C4_amended_error_indices (s : NotebookState) (nb : ThebeNotebook)
    (pred : IThebeCell → Bool) (options : Option NotebookExecuteOptions)
    (h : s.notebook = some nb) :
    (∀ ev s2 ret, executeAll s options = Except.ok (ev, s2, ret) →
      ∀ l, findErrors ret = some l → s2.errors = some l ∧
        ∀ e ∈ l, ret.get? e.index = some (some e.ret) ∧ e.ret.error.isSome = true ∧
          ∃ c, nb.cells.get? e.index = some c ∧ e.ret = c.outcome) ∧
    (∀ ev s2 ret, executeSome s pred options = Except.ok (ev, s2, ret) →
      ∀ l, findErrors ret = some l → s2.errors = some l ∧
        ∀ e ∈ l, ret.get? e.index = some (some e.ret) ∧ e.ret.error.isSome = true) := by
  constructor
  · intro ev s2 ret heq l hl
    unfold executeAll at heq
    rw [h] at heq
    injection heq with hpair
    cases hpair
    simp only [executeResolve, executeStart] at hl ⊢
    rw [hl]
    refine ⟨rfl, ?_⟩
    intro e he
    obtain ⟨h1, h2⟩ := findErrors_entries _ l hl e he
    refine ⟨h1, h2, ?_⟩
    obtain ⟨c, hc, hco⟩ := runCells_get?_some (optStopOnError options) nb.cells e.index e.ret
      (by exact h1)
    exact ⟨c, hc, hco⟩
  · intro ev s2 ret heq l hl
    unfold executeSome at heq
    rw [h] at heq
    injection heq with hpair
    cases hpair
    simp only [executeResolve, executeStart] at hl ⊢
    rw [hl]
    exact ⟨rfl, fun e he => findErrors_entries _ l hl e he⟩

/-- C4 witness: the amended statement applied at a concrete `executeAll` run
of the three-cell notebook — the failing entry has index 1, its position both
in the result list and in the notebook. -/
theorem C4_amended_error_indices_witness :
    [some (⟨"a", none⟩ : IThebeCellExecuteReturn), some ⟨"b", some ⟨"RuntimeError"⟩⟩,
        none].get? 1 = some (some ⟨"b", some ⟨"RuntimeError"⟩⟩) ∧
    (⟨"b", some ⟨"RuntimeError"⟩⟩ : IThebeCellExecuteReturn).error.isSome = true ∧
    ∃ c, nbABC.cells.get? 1 = some c ∧
      (⟨"b", some ⟨"RuntimeError"⟩⟩ : IThebeCellExecuteReturn) = c.outcome := by
  exact ((C4_amended_error_indices freshNbState nbABC (fun _ => true) none rfl).1
    [] ⟨some nbABC, false, true, some [⟨⟨"b", some ⟨"RuntimeError"⟩⟩, 1⟩]⟩
    [some ⟨"a", none⟩, some ⟨"b", some ⟨"RuntimeError"⟩⟩, none] rfl
    [⟨⟨"b", some ⟨"RuntimeError"⟩⟩, 1⟩] rfl).2
    ⟨⟨"b", some ⟨"RuntimeError"⟩⟩, 1⟩ (List.mem_singleton.mpr rfl)

/-! ### Lemmas: every joined element is a substring of the join -/

theorem joinComma_mem_split (l : List String) (k : String) (hk : k ∈ l) :
    ∃ p q, joinComma l = p ++ (k ++ q) := by
  induction l with
  | nil => cases hk
  | cons x xs ih =>
    cases xs with
    | nil =>
      rcases List.mem_singleton.mp hk with rfl
      refine ⟨"", "", ?_⟩
      show k = "" ++ (k ++ "")
      rw [String.empty_append, String.append_empty]
    | cons y ys =>
      rcases List.mem_cons.mp hk with rfl | hk2
      · refine ⟨"", "," ++ joinComma (y :: ys), ?_⟩
        show k ++ "," ++ joinComma (y :: ys) = "" ++ (k ++ ("," ++ joinComma (y :: ys)))
        rw [String.empty_append, String.append_assoc]
      · obtain ⟨p, q, hpq⟩ := ih hk2
        refine ⟨x ++ "," ++ p, q, ?_⟩
        show x ++ "," ++ joinComma (y :: ys) = x ++ "," ++ p ++ (k ++ q)
        simp [hpq, String.append_assoc]

/-! ### Session claim theorems -/

/-- C6: `start()` with an existing ready session performs a restart of that
same session — provider state (including the stored handle) is unchanged and
no new session is requested; otherwise it falls through to `startSession`,
whose first remote call requests a new session passing the logical name as
both the display name and the working path. -/
theorem C6_start_routing (server : ThebeServer) (config : Option ThebeConfig)
    (name : String) (s : SessionState) :
    (s.session.isSome = true → s.ready = true →
      SessionProvider.start server config name s =
        ([SessionAction.restartedExistingSession], s)) ∧
    ((s.session.isSome && s.ready) = false →
      SessionProvider.start server config name s =
        SessionProvider.startSession server config name s ∧
      (SessionProvider.startSession server config name s).1.head? =
        some (SessionAction.requestedNewSession
          { kernels := config.map (fun c => c.kernels), name := name, path := name })) := by
  constructor
  · intro h1 h2
    unfold SessionProvider.start
    rw [if_pos (by simp [h1, h2])]
  · intro hcond
    constructor
    · unfold SessionProvider.start
      rw [if_neg (by simp [hcond])]
    · unfold SessionProvider.startSession
      cases hx : server.startNewSession
          { kernels := config.map (fun c => c.kernels), name := name, path := name } <;>
        simp [hx]

/-- C6 witness: concrete server with both a ready state (restart path) and a
fresh state (new-session path). -/
theorem C6_start_routing_witness :
    SessionProvider.start
        ⟨fun _ => some ⟨"sesh-2"⟩, ⟨[("python3", "spec")]⟩⟩ (some ⟨⟨"python3"⟩⟩) "default"
        ⟨false, false, false, some ⟨"sesh-1"⟩, true, none⟩ =
      ([SessionAction.restartedExistingSession],
        ⟨false, false, false, some ⟨"sesh-1"⟩, true, none⟩) ∧
    (SessionProvider.startSession
        ⟨fun _ => some ⟨"sesh-2"⟩, ⟨[("python3", "spec")]⟩⟩ (some ⟨⟨"python3"⟩⟩) "default"
        ⟨false, false, false, none, false, none⟩).1.head? =
      some (SessionAction.requestedNewSession
        { kernels := some ⟨"python3"⟩, name := "default", path := "default" }) := by
  constructor
  · exact (C6_start_routing ⟨fun _ => some ⟨"sesh-2"⟩, ⟨[("python3", "spec")]⟩⟩
      (some ⟨⟨"python3"⟩⟩) "default" ⟨false, false, false, some ⟨"sesh-1"⟩, true, none⟩).1
      rfl rfl
  · exact ((C6_start_routing ⟨fun _ => some ⟨"sesh-2"⟩, ⟨[("python3", "spec")]⟩⟩
      (some ⟨⟨"python3"⟩⟩) "default" ⟨false, false, false, none, false, none⟩).2 rfl).2

/-- C7: when the server returns no session, `startSession` returns normally
(no exception path exists), queries the kernel specs and records an error
message that contains every kernel-spec name returned, while `ready` and the
stored session handle are untouched. -/
theorem C7_start_failure_reports_kernels (server : ThebeServer) (config : Option ThebeConfig)
    (name : String) (s : SessionState)
    (h : server.startNewSession
        { kernels := config.map (fun c => c.kernels), name := name, path := name } = none) :
    (SessionProvider.startSession server config name s).2.error =
      some ("Could not start a session - available kernels: " ++
        joinComma (server.getKernelSpecs.kernelspecs.map Prod.fst)) ∧
    (∀ k ∈ server.getKernelSpecs.kernelspecs.map Prod.fst,
      ∃ p q, (SessionProvider.startSession server config name s).2.error =
        some (p ++ (k ++ q))) ∧
    (SessionProvider.startSession server config name s).2.ready = s.ready ∧
    (SessionProvider.startSession server config name s).2.session = s.session ∧
    SessionAction.queriedKernelSpecs ∈ (SessionProvider.startSession server config name s).1 := by
  have hmain : SessionProvider.startSession server config name s =
      ([SessionAction.requestedNewSession
          { kernels := config.map (fun c => c.kernels), name := name, path := name },
        SessionAction.queriedKernelSpecs],
       { s with
          starting := false
          error := some ("Could not start a session - available kernels: " ++
            joinComma (server.getKernelSpecs.kernelspecs.map Prod.fst)) }) := by
    simp only [SessionProvider.startSession]
    rw [h]
  rw [hmain]
  refine ⟨rfl, ?_, rfl, rfl, by simp⟩
  intro k hk
  obtain ⟨p, q, hpq⟩ := joinComma_mem_split _ k hk
  refine ⟨"Could not start a session - available kernels: " ++ p, q, ?_⟩
  simp only [hpq, String.append_assoc]

/-- C7 witness: a server that refuses the session and offers two kernels. -/
theorem C7_start_failure_reports_kernels_witness :
    (SessionProvider.startSession
        ⟨fun _ => none, ⟨[("python3", "spec"), ("ir", "spec")]⟩⟩ none "default"
        ⟨false, false, false, none, false, none⟩).2.error =
      some ("Could not start a session - available kernels: " ++ joinComma ["python3", "ir"]) ∧
    (SessionProvider.startSession
        ⟨fun _ => none, ⟨[("python3", "spec"), ("ir", "spec")]⟩⟩ none "default"
        ⟨false, false, false, none, false, none⟩).2.ready = false ∧
    (SessionProvider.startSession
        ⟨fun _ => none, ⟨[("python3", "spec"), ("ir", "spec")]⟩⟩ none "default"
        ⟨false, false, false, none, false, none⟩).2.session = none := by
  have hc := C7_start_failure_reports_kernels
    ⟨fun _ => none, ⟨[("python3", "spec"), ("ir", "spec")]⟩⟩ none "default"
    ⟨false, false, false, none, false, none⟩ rfl
  exact ⟨hc.1, hc.2.2.1, hc.2.2.2.1⟩

/-! ### Busy-indicator and renderer claim theorems -/

/-- The cell box with id "cell1" as the UI builder leaves it: it contains the
busy-indicator subtree appended by `buildButtonBusySpinner`. -/
def busyCellNode : DomTree :=
  DomTree.node "cell1" ["thebe-cell"] "" [buildButtonBusySpinner]

/-- A document containing that cell box. -/
def busyDoc : DomTree := DomTree.node "root" [] "" [busyCellNode]

/-- C9 (code bug): the busy indicator built by `buildButtonBusySpinner`
carries class `thebe-busy` and is nested under the node with id "cell1", but
`getButtonsBusy` performs the lookup with the class-name string ".thebe-busy"
(a CSS-selector spelling), which matches no element: the lookup yields
nothing, `setButtonsBusy` leaves the document unchanged — the indicator never
becomes visible — and the hide that `clearButtonsBusy` schedules after its
fixed 3000 ms delay changes nothing either. -/
theorem C9_busy_indicator_lookup_mismatch :
    getElementsByClassName "thebe-busy" busyCellNode = [buildButtonBusySpinner] ∧
    getElementsByClassName ".thebe-busy" busyCellNode = [] ∧
    getById "cell1" busyDoc = some busyCellNode ∧
    getButtonsBusy busyDoc "cell1" = none ∧
    setButtonsBusy busyDoc "cell1" = busyDoc ∧
    clearButtonsBusy busyDoc "cell1" = (3000, busyDoc) := by
  exact ⟨rfl, rfl, rfl, rfl, rfl, rfl⟩

/-- C10: `renderAllCells` maps the discovered items one-to-one; an item whose
id matches no notebook cell is returned unchanged with no DOM side effect,
while an item with a matching cell is replaced by the built UI item (its `ui`
record set). -/
theorem C10_renderAllCells_passthrough (options : Options) (notebook : ThebeNotebook)
    (items : List CellDOMItem) (i : Nat) (item : CellDOMItem)
    (h : items.get? i = some item) :
    (renderAllCells options notebook items).length = items.length ∧
    (notebook.getCellById item.id = none →
      (renderAllCells options notebook items).get? i = some (item, [])) ∧
    (∀ cell, notebook.getCellById item.id = some cell →
      (renderAllCells options notebook items).get? i =
        some (buildCellUI options item notebook cell) ∧
      (buildCellUI options item notebook cell).1.ui.isSome = true) := by
  refine ⟨List.length_map items _, ?_, ?_⟩
  · intro hnone
    rw [renderAllCells, List.get?_map, h]
    simp [hnone]
  · intro cell hcell
    refine ⟨?_, rfl⟩
    rw [renderAllCells, List.get?_map, h]
    simp [hcell]

/-- Renderer options with every button mounted. -/
def defaultOptions : Options := ⟨true, true, true, true⟩

/-- A discovered item whose id matches notebook cell "a". -/
def itemA : CellDOMItem := ⟨"a", ⟨Elem.fromPage 0, some (Elem.fromPage 1)⟩, none⟩

/-- A discovered item whose id matches no notebook cell. -/
def itemZ : CellDOMItem := ⟨"zz", ⟨Elem.fromPage 2, none⟩, none⟩

/-- C10 witness: a two-item render against the three-cell notebook — the
unmatched item passes through untouched, the matched one gets its UI built. -/
theorem C10_renderAllCells_passthrough_witness :
    (renderAllCells defaultOptions nbABC [itemA, itemZ]).length = 2 ∧
    (renderAllCells defaultOptions nbABC [itemA, itemZ]).get? 1 = some (itemZ, []) ∧
    (renderAllCells defaultOptions nbABC [itemA, itemZ]).get? 0 =
      some (buildCellUI defaultOptions itemA nbABC cellA) ∧
    (buildCellUI defaultOptions itemA nbABC cellA).1.ui.isSome = true := by
  have h1 := C10_renderAllCells_passthrough defaultOptions nbABC [itemA, itemZ] 1 itemZ rfl
  have h0 := C10_renderAllCells_passthrough defaultOptions nbABC [itemA, itemZ] 0 itemA rfl
  exact ⟨h1.1, h1.2.1 rfl, (h0.2.2 cellA rfl).1, (h0.2.2 cellA rfl).2⟩
